import Mathlib

/-!
Verification of the aggregation pipeline of the FrenchBirthRates2019 dashboard
(`dashboard.py`), as a shallow embedding in Lean 4.

The raw dataset is a list of birth records; the pipeline builds the derived
tables (`df_choropleth`, `df_barplot`, the sunburst groups, the last-name and
recognition line-chart data) by pure tabular aggregation.  Pandas dataframes
are embedded as lists of rows; float-valued cells that can become non-finite
(IEEE `-inf` or `NaN` coming from `log 0` or a division by a zero count) are
embedded as `LogValue` / `Option ℚ`, where the non-finite outcome is
represented explicitly instead of being collapsed to a default number.
-/

/-- One row of `FD_NAIS_2019.csv`, restricted to the columns the aggregation
pipeline reads.  `DEPNAIS` is kept in its string form (the source applies
`str` to it inside `clean_dep`); the other columns are integral codes.
The `ANAIS` column (birth year) is used by the source only as the column on
which `count()` is taken, so it carries no information and is omitted. -/
structure BirthRecord where
  DEPNAIS : String
  MNAIS : ℕ
  AGEXACTM : ℕ
  AGEXACTP : ℕ
  INDNATM : ℤ
  INDNATP : ℤ
  ORIGINOM : ℤ
  ARECM : ℤ
  ARECP : ℤ
  AMAR : ℤ
deriving DecidableEq, Repr

/-- `clean_dep` from `dashboard.py`: zero-pad a department code whose string
form has length 1. -/
def clean_dep (dep : String) : String :=
  if dep.length = 1 then "0" ++ dep else dep

/-- The normalization step of `clean_and_read_data`: every record's `DEPNAIS`
column is replaced by `clean_dep` of its raw value. -/
def cleanRecords (rs : List BirthRecord) : List BirthRecord :=
  rs.map fun r => { r with DEPNAIS := clean_dep r.DEPNAIS }

/-- Result of `np.log` on a nonnegative integer count, embedded symbolically:
`np.log 0` is the non-finite IEEE value `-inf`; on a positive count `n` the
result is the finite real `log n`, recorded by its argument (no claim depends
on the magnitude of a finite logarithm, only on finite vs non-finite). -/
inductive LogValue where
  | negInf : LogValue
  | finite : ℕ → LogValue
deriving DecidableEq, Repr

/-- `np.log` applied to a count: zero gives `-inf` (non-finite). -/
def npLog (n : ℕ) : LogValue :=
  if n = 0 then LogValue.negInf else LogValue.finite n

/-- One row of `df_choropleth`: columns `Department`, `Births (abs)`,
`Births (log)`. -/
structure ChoroplethRow where
  department : String
  birthsAbs : ℕ
  birthsLog : LogValue
deriving DecidableEq, Repr

/-- The count expression of the `df_choropleth` comprehension:
`df[df["DEPNAIS"] == clean_dep(code)].shape[0]`, taken over the cleaned
records. -/
def choroplethCount (rs : List BirthRecord) (code : String) : ℕ :=
  ((cleanRecords rs).filter fun r => r.DEPNAIS = clean_dep code).length

/-- `df_choropleth` from `dashboard.py`: one row per code of the geometry
index `gs`, with the matching-record count and its `np.log` column. -/
def df_choropleth (rs : List BirthRecord) (gs : List String) : List ChoroplethRow :=
  gs.map fun code =>
    { department := code
      birthsAbs := choroplethCount rs code
      birthsLog := npLog (choroplethCount rs code) }

/-- The `months` list from `dashboard.py`. -/
def months : List String :=
  ["January", "February", "March", "April", "May", "June",
   "July", "August", "September", "October", "November", "December"]

/-- `monthrange(2019, m)[1]`: the number of days of month `m` of 2019
(not a leap year). -/
def monthDays (m : ℕ) : ℕ :=
  [31, 28, 31, 30, 31, 30, 31, 31, 30, 31, 30, 31].getD (m - 1) 0

/-- Python's builtin `round` on an exact rational: round half to even. -/
def pyRound (q : ℚ) : ℤ :=
  let f : ℤ := ⌊q⌋
  if q - f < 1/2 then f
  else if 1/2 < q - f then f + 1
  else if f % 2 = 0 then f else f + 1

/-- The `.replace({...})` mapping building the `Month (procreation)` column:
a fixed lookup on the birth-month label (values not in the mapping are left
unchanged, as `pandas.Series.replace` does). -/
def procreationMap (s : String) : String :=
  if s = "January" then "April 2018"
  else if s = "February" then "May 2018"
  else if s = "March" then "June 2018"
  else if s = "April" then "July 2018"
  else if s = "May" then "August 2018"
  else if s = "June" then "September 2018"
  else if s = "July" then "October 2018"
  else if s = "August" then "November 2018"
  else if s = "September" then "December 2018"
  else if s = "October" then "January 2019"
  else if s = "November" then "February 2019"
  else if s = "December" then "March 2019"
  else s

/-- The distinct month values present in the data, sorted ascending.
The source builds the rows from `df["MNAIS"].unique()` and then applies
`.sort_values("Month_ind")`; deduplicating and then sorting yields the same
list (both are the sorted arrangement of the same duplicate-free set). -/
def monthsPresent (rs : List BirthRecord) : List ℕ :=
  List.insertionSort (fun a b => a ≤ b) (rs.map BirthRecord.MNAIS).dedup

/-- One row of `df_barplot`: columns `Month_ind`, `Month (birth)`,
`Births (abs)`, `Births (norm)`, `Month (procreation)`. -/
structure BarplotRow where
  monthInd : ℕ
  monthBirth : String
  birthsAbs : ℕ
  birthsNorm : ℤ
  monthProcreation : String
deriving DecidableEq, Repr

/-- `df_barplot` from `dashboard.py`: one row per distinct month present in
the data, sorted ascending, with the absolute count, the 30-day-normalized
count `round(abs / monthrange(2019, m)[1] * 30)` and the procreation-month
label. -/
def df_barplot (rs : List BirthRecord) : List BarplotRow :=
  (monthsPresent rs).map fun m =>
    let A := (rs.filter fun r => r.MNAIS = m).length
    { monthInd := m
      monthBirth := months.getD (m - 1) ""
      birthsAbs := A
      birthsNorm := pyRound ((A : ℚ) / (monthDays m : ℚ) * 30)
      monthProcreation := procreationMap (months.getD (m - 1) "") }

/-- The `ind_to_origine_nom` dict of `last_name_pie`, as a partial lookup. -/
def ind_to_origine_nom (i : ℤ) : Option String :=
  if i = 1 then some "Father"
  else if i = 2 then some "Mother"
  else if i = 3 then some "Father - Mother"
  else if i = 4 then some "Mother - Father"
  else if i = 5 then some "Other"
  else none

/-- The `Last name choice` column:
`ind_to_origine_nom.get(ser["ORIGINOM"], "Father")`. -/
def lastNameChoice (r : BirthRecord) : String :=
  (ind_to_origine_nom r.ORIGINOM).getD "Father"

/-- The `ind_to_nat` dict of `last_name_pie`, as a partial lookup:
`ind_to_nat[flag]` raises `KeyError` outside {1, 2}. -/
def ind_to_nat (i : ℤ) : Option String :=
  if i = 1 then some "French"
  else if i = 2 then some "Foreign"
  else none

/-- The distinct keys of `df.groupby(["INDNATP", "INDNATM", "Last name
choice"])`.  Pandas enumerates group keys in sorted order; no claim checked
here depends on the enumeration order of the groups, only on which keys
occur and on their counts, so the duplicate-free key list is used as is. -/
def lastNameGroupKeys (rs : List BirthRecord) : List (ℤ × ℤ × String) :=
  (rs.map fun r => (r.INDNATP, r.INDNATM, lastNameChoice r)).dedup

/-- The grouped `count()` table of `last_name_pie`: each distinct
(INDNATP, INDNATM, label) key with the number of records matching it. -/
def lastNameGroups (rs : List BirthRecord) : List ((ℤ × ℤ × String) × ℕ) :=
  (lastNameGroupKeys rs).map fun k =>
    (k, (rs.filter fun r => (r.INDNATP, r.INDNATM, lastNameChoice r) = k).length)

/-- The list comprehension of `last_name_pie` building the sunburst rows
`(count, "natP/natM", label)`: the `ind_to_nat[...]` subscripts raise
`KeyError` (modelled as `Except.error`) on a flag outside {1, 2}. -/
def sunburstRowsAux : List ((ℤ × ℤ × String) × ℕ) → Except String (List (ℕ × String × String))
  | [] => Except.ok []
  | g :: gs =>
    match ind_to_nat g.1.1, ind_to_nat g.1.2.1 with
    | some natP, some natM =>
      (sunburstRowsAux gs).map fun rest => (g.2, natP ++ "/" ++ natM, g.1.2.2) :: rest
    | _, _ => Except.error "KeyError"

/-- The sunburst data of `last_name_pie`, starting from the raw records. -/
def last_name_pie_rows (rs : List BirthRecord) : Except String (List (ℕ × String × String)) :=
  sunburstRowsAux (lastNameGroups rs)

/-- `Except.ok`-ness of a fallible computation (completion without error). -/
def isOkE {ε α : Type} : Except ε α → Bool
  | Except.ok _ => true
  | Except.error _ => false

/-- Float division of a count by a count, times 100 (the percentage
expression of `last_name_line` and `recognition`): a zero denominator
yields an IEEE non-finite value (`inf` or `NaN`), embedded as `none`. -/
def pctDiv (num den : ℕ) : Option ℚ :=
  if den = 0 then none else some ((num : ℚ) / (den : ℚ) * 100)

/-- `df["Last name choice"].unique()`: the distinct last-name labels present
in the data (order of enumeration is irrelevant to the claims checked). -/
def distinctLabels (rs : List BirthRecord) : List String :=
  (rs.map lastNameChoice).dedup

/-- `sorted(df["AGEXACTP"].unique())`: the distinct father ages, ascending.
Both `last_name_line` and `recognition` iterate over this list. -/
def sortedFatherAges (rs : List BirthRecord) : List ℕ :=
  List.insertionSort (fun a b => a ≤ b) (rs.map BirthRecord.AGEXACTP).dedup

/-- One entry of the `last_name_line` data: `(Age, Last name choice,
Usage (%))`. -/
structure LastNameAgeRow where
  age : ℕ
  choice : String
  pct : Option ℚ
deriving DecidableEq, Repr

/-- The `data` list of `last_name_line`: for each distinct father age and
each distinct label, the share of that label among the records where either
parent has that age. -/
def last_name_line_data (rs : List BirthRecord) : List LastNameAgeRow :=
  (sortedFatherAges rs).flatMap fun age =>
    (distinctLabels rs).map fun choice =>
      let sub := rs.filter fun r => r.AGEXACTP = age ∨ r.AGEXACTM = age
      { age := age
        choice := choice
        pct := pctDiv (sub.filter fun r => lastNameChoice r = choice).length sub.length }

/-- One entry of the `recognition` data: `(Parent, Age, Recognition
rate (%))`. -/
structure RecognitionRow where
  parent : String
  age : ℕ
  rate : Option ℚ
deriving DecidableEq, Repr

/-- The `data` list of `recognition`: for each distinct father age, a
"Mother" entry and a "Father" entry with the share of records where that
parent has that age and recognized the child or was married, over the count
of records where that parent has that age. -/
def recognition_data (rs : List BirthRecord) : List RecognitionRow :=
  (sortedFatherAges rs).flatMap fun age =>
    [ { parent := "Mother"
        age := age
        rate := pctDiv
          (rs.filter fun r => r.AGEXACTM = age ∧ (r.ARECM ≠ 0 ∨ r.AMAR ≠ 0)).length
          (rs.filter fun r => r.AGEXACTM = age).length },
      { parent := "Father"
        age := age
        rate := pctDiv
          (rs.filter fun r => r.AGEXACTP = age ∧ (r.ARECP ≠ 0 ∨ r.AMAR ≠ 0)).length
          (rs.filter fun r => r.AGEXACTP = age).length } ]

/-- A concrete record used by witnesses: department "75", born in February,
mother 28 / father 30, both French, last name from the father. -/
def recFeb : BirthRecord := ⟨"75", 2, 28, 30, 1, 1, 1, 0, 0, 0⟩

/-- The single `df_barplot` row obtained from `[recFeb]`. -/
def febRow : BarplotRow := ⟨2, "February", 1, 1, "May 2018"⟩

/-- A one-record dataset whose department code needs padding. -/
def rsDep : List BirthRecord := [⟨"5", 1, 28, 30, 1, 1, 1, 0, 0, 0⟩]

/-- A two-code geometry index for the choropleth witness. -/
def gsDep : List String := ["05", "75"]

/-- A one-record dataset where the mother's age (25) appears in no father's
age column. -/
def rsAge : List BirthRecord := [⟨"75", 1, 25, 30, 1, 1, 1, 0, 0, 0⟩]

/-- A one-record dataset with an unmapped last-name-origin code (9) and a
Foreign/French nationality pair. -/
def rsOri : List BirthRecord := [⟨"75", 1, 28, 30, 1, 2, 9, 0, 0, 0⟩]

/-- A duplicate-free list sums the indicator of one of its members to 1. -/
lemma sum_map_ite_eq_one {β : Type} [DecidableEq β] (gs : List β) (b : β)
    (hnd : gs.Nodup) (hb : b ∈ gs) :
    (gs.map fun c => if b = c then (1 : ℕ) else 0).sum = 1 := by
  induction gs with
  | nil => cases hb
  | cons a gs ih =>
    rw [List.map_cons, List.sum_cons]
    rcases List.mem_cons.mp hb with h | h
    · subst h
      rw [if_pos rfl]
      have hz : (gs.map fun c => if b = c then (1 : ℕ) else 0).sum = 0 := by
        apply List.sum_eq_zero
        intro x hx
        rw [List.mem_map] at hx
        obtain ⟨c, hc, rfl⟩ := hx
        rw [if_neg]
        intro he
        exact (List.nodup_cons.mp hnd).1 (he ▸ hc)
      rw [hz]
    · have hne : ¬ b = a := fun he => (List.nodup_cons.mp hnd).1 (he ▸ h)
      rw [if_neg hne, ih (List.nodup_cons.mp hnd).2 h]

/-- Fiberwise counting: when every element's key lies in a duplicate-free
key list, the per-key filter lengths sum to the total length. -/
lemma sum_fiber_lengths {α β : Type} [DecidableEq β] (f : α → β)
    (rs : List α) (gs : List β) (hnd : gs.Nodup) (hcov : ∀ r ∈ rs, f r ∈ gs) :
    (gs.map fun c => (rs.filter fun r => f r = c).length).sum = rs.length := by
  induction rs with
  | nil => simp
  | cons a rs ih =>
    have hcov2 : ∀ r ∈ rs, f r ∈ gs := fun r hr => hcov r (List.mem_cons_of_mem _ hr)
    have step : ∀ c ∈ gs, ((a :: rs).filter fun r => f r = c).length
        = (if f a = c then (1 : ℕ) else 0) + (rs.filter fun r => f r = c).length := by
      intro c _
      rw [List.filter_cons]
      by_cases h : f a = c
      · simp [h]
        omega
      · simp [h]
    rw [List.map_eq_map_iff.mpr step, List.sum_map_add,
      sum_map_ite_eq_one gs (f a) hnd (hcov a (List.mem_cons_self a rs)),
      ih hcov2, List.length_cons]
    omega

/-- In a duplicate-free list, filtering for one of its members yields a
single element. -/
lemma filter_eq_of_nodup {β : Type} [DecidableEq β] (gs : List β) (c : β)
    (hnd : gs.Nodup) (hc : c ∈ gs) :
    (gs.filter fun x => x = c).length = 1 := by
  have h1 : (gs.filter fun x => x = c).length = gs.count c := by
    rw [List.count, List.countP_eq_length_filter]
    rfl
  rw [h1]
  exact List.count_eq_one_of_mem hnd hc

/-- Counting over the cleaned records is counting the raw records by their
cleaned department code. -/
lemma choroplethCount_eq (rs : List BirthRecord) (s : String) :
    choroplethCount rs s = (rs.filter fun r => clean_dep r.DEPNAIS = clean_dep s).length := by
  rw [choroplethCount, cleanRecords, List.filter_map, List.length_map]
  rfl

/-- A string of length at least 2 is not padded by `clean_dep`. -/
lemma clean_dep_of_long {s : String} (h : 2 ≤ s.length) : clean_dep s = s := by
  rw [clean_dep, if_neg (by omega)]

/-- C9: `clean_dep` pads length-1 codes with a leading zero (output length 2)
and leaves codes of length at least 2 unchanged. -/
theorem clean_dep_spec (s : String) :
    (s.length = 1 → clean_dep s = "0" ++ s ∧ (clean_dep s).length = 2) ∧
    (2 ≤ s.length → clean_dep s = s) := by
  constructor
  · intro h
    rw [clean_dep, if_pos h]
    refine ⟨rfl, ?_⟩
    rw [String.length_append, h]
    decide
  · intro h
    rw [clean_dep, if_neg (by omega)]

/-- Witness for C9 at the concrete codes "5" and "75". -/
theorem clean_dep_spec_witness :
    (clean_dep "5" = "0" ++ "5" ∧ (clean_dep "5").length = 2) ∧ clean_dep "75" = "75" :=
  ⟨(clean_dep_spec "5").1 (by decide), (clean_dep_spec "75").2 (by decide)⟩

/-- C6: the procreation-month label is a fixed lookup on the birth-month
label reproducing the twelve literal pairs, including the 2018/2019 rollover
between birth months 9 and 10. -/
theorem procreation_month_mapping :
    procreationMap (months.getD 0 "") = "April 2018" ∧
    procreationMap (months.getD 1 "") = "May 2018" ∧
    procreationMap (months.getD 2 "") = "June 2018" ∧
    procreationMap (months.getD 3 "") = "July 2018" ∧
    procreationMap (months.getD 4 "") = "August 2018" ∧
    procreationMap (months.getD 5 "") = "September 2018" ∧
    procreationMap (months.getD 6 "") = "October 2018" ∧
    procreationMap (months.getD 7 "") = "November 2018" ∧
    procreationMap (months.getD 8 "") = "December 2018" ∧
    procreationMap (months.getD 9 "") = "January 2019" ∧
    procreationMap (months.getD 10 "") = "February 2019" ∧
    procreationMap (months.getD 11 "") = "March 2019" := by
  decide

/-- C7: every `df_barplot` row satisfies
`birthsNorm = round(birthsAbs / monthrange(2019, monthInd)[1] * 30)`; in
particular a month-2 row (28 days in 2019) satisfies
`birthsNorm = round(birthsAbs / 28 * 30)`. -/
theorem barplot_normalized (rs : List BirthRecord) (row : BarplotRow)
    (h : row ∈ df_barplot rs) :
    row.birthsNorm = pyRound ((row.birthsAbs : ℚ) / (monthDays row.monthInd : ℚ) * 30) ∧
    (row.monthInd = 2 → row.birthsNorm = pyRound ((row.birthsAbs : ℚ) / 28 * 30)) := by
  rw [df_barplot, List.mem_map] at h
  obtain ⟨m, hm, rfl⟩ := h
  refine ⟨rfl, fun h2 => ?_⟩
  simp only at h2 ⊢
  subst h2
  rfl

/-- Witness for C7 on the one-record dataset `[recFeb]`. -/
theorem barplot_normalized_witness :
    febRow ∈ df_barplot [recFeb] ∧
    febRow.birthsNorm = pyRound ((febRow.birthsAbs : ℚ) / (monthDays febRow.monthInd : ℚ) * 30) ∧
    febRow.birthsNorm = pyRound ((febRow.birthsAbs : ℚ) / 28 * 30) := by
  have hmem : febRow ∈ df_barplot [recFeb] := by
    have hval : df_barplot [recFeb] = [febRow] := by
      simp [df_barplot, monthsPresent, recFeb, febRow, months, monthDays, procreationMap]
      norm_num [pyRound]
    rw [hval]
    exact List.mem_singleton.mpr rfl
  exact ⟨hmem, (barplot_normalized [recFeb] febRow hmem).1,
    (barplot_normalized [recFeb] febRow hmem).2 rfl⟩

/-- C8: the months of `df_barplot` are exactly the distinct `MNAIS` values
present in the input, each exactly once, sorted in ascending order. -/
theorem monthly_table_months (rs : List BirthRecord) :
    (df_barplot rs).map BarplotRow.monthInd = monthsPresent rs ∧
    (∀ m : ℕ, m ∈ (df_barplot rs).map BarplotRow.monthInd ↔ m ∈ rs.map BirthRecord.MNAIS) ∧
    ((df_barplot rs).map BarplotRow.monthInd).Nodup ∧
    List.Sorted (fun a b => a ≤ b) ((df_barplot rs).map BarplotRow.monthInd) := by
  have hproj : (df_barplot rs).map BarplotRow.monthInd = monthsPresent rs := by
    rw [df_barplot, List.map_map]
    exact List.map_id _
  have hperm : List.Perm (monthsPresent rs) (rs.map BirthRecord.MNAIS).dedup :=
    List.perm_insertionSort _ _
  refine ⟨hproj, ?_, ?_, ?_⟩
  · intro m
    rw [hproj, hperm.mem_iff, List.mem_dedup]
  · rw [hproj]
    exact hperm.nodup_iff.mpr (List.nodup_dedup _)
  · rw [hproj]
    exact List.sorted_insertionSort _ _

/-- C1: over a duplicate-free geometry index of 2-character codes covering
every record's cleaned department code, `df_choropleth` has exactly one row
per code; each row's count is the number of records whose zero-padded
department code equals its code (a zero count is kept, with a non-finite
log value, rather than the row being dropped); and the counts sum to the
total number of records. -/
theorem choropleth_counts (rs : List BirthRecord) (gs : List String)
    (hnd : gs.Nodup) (hlen : ∀ c ∈ gs, 2 ≤ c.length)
    (hcov : ∀ r ∈ rs, clean_dep r.DEPNAIS ∈ gs) :
    (∀ c ∈ gs, ((df_choropleth rs gs).filter fun row => row.department = c).length = 1) ∧
    (∀ row ∈ df_choropleth rs gs,
      row.birthsAbs = (rs.filter fun r => clean_dep r.DEPNAIS = row.department).length ∧
      (row.birthsAbs = 0 → row.birthsLog = LogValue.negInf)) ∧
    ((df_choropleth rs gs).map ChoroplethRow.birthsAbs).sum = rs.length := by
  refine ⟨?_, ?_, ?_⟩
  · intro c hc
    rw [df_choropleth, List.filter_map, List.length_map]
    exact filter_eq_of_nodup gs c hnd hc
  · intro row hrow
    rw [df_choropleth, List.mem_map] at hrow
    obtain ⟨code, hcode, rfl⟩ := hrow
    constructor
    · show choroplethCount rs code = _
      rw [choroplethCount_eq, clean_dep_of_long (hlen code hcode)]
    · intro h0
      show npLog (choroplethCount rs code) = LogValue.negInf
      rw [show choroplethCount rs code = 0 from h0, npLog]
      rfl
  · have hmap : (df_choropleth rs gs).map ChoroplethRow.birthsAbs
        = gs.map fun c => (rs.filter fun r => clean_dep r.DEPNAIS = c).length := by
      rw [df_choropleth, List.map_map]
      apply List.map_eq_map_iff.mpr
      intro c hc
      show choroplethCount rs c = _
      rw [choroplethCount_eq, clean_dep_of_long (hlen c hc)]
    rw [hmap]
    exact sum_fiber_lengths (fun r => clean_dep r.DEPNAIS) rs gs hnd hcov

/-- Witness for C1 on one record (raw code "5") and a two-code geometry. -/
theorem choropleth_counts_witness :
    (∀ c ∈ gsDep, ((df_choropleth rsDep gsDep).filter fun row => row.department = c).length = 1) ∧
    (∀ row ∈ df_choropleth rsDep gsDep,
      row.birthsAbs = (rsDep.filter fun r => clean_dep r.DEPNAIS = row.department).length ∧
      (row.birthsAbs = 0 → row.birthsLog = LogValue.negInf)) ∧
    ((df_choropleth rsDep gsDep).map ChoroplethRow.birthsAbs).sum = rsDep.length :=
  choropleth_counts rsDep gsDep (by decide) (by decide) (by decide)

/-- `ind_to_nat` succeeds exactly on the flag domain {1, 2}. -/
lemma ind_to_nat_isSome (i : ℤ) : (ind_to_nat i).isSome = true ↔ i = 1 ∨ i = 2 := by
  rw [ind_to_nat]
  by_cases h1 : i = 1
  · simp [h1]
  · by_cases h2 : i = 2 <;> simp [h1, h2]

/-- The sunburst comprehension completes exactly when both nationality flags
of every group are in the domain of `ind_to_nat`. -/
lemma sunburstRowsAux_isOk (gs : List ((ℤ × ℤ × String) × ℕ)) :
    isOkE (sunburstRowsAux gs) = true ↔
      ∀ g ∈ gs, (ind_to_nat g.1.1).isSome = true ∧ (ind_to_nat g.1.2.1).isSome = true := by
  induction gs with
  | nil => simp [sunburstRowsAux, isOkE]
  | cons g gs ih =>
    rw [sunburstRowsAux]
    cases hP : ind_to_nat g.1.1 with
    | none =>
      cases hM : ind_to_nat g.1.2.1 <;> simp [isOkE, hP, hM]
    | some natP =>
      cases hM : ind_to_nat g.1.2.1 with
      | none => simp [isOkE, hP, hM]
      | some natM =>
        have hmap : isOkE ((sunburstRowsAux gs).map
              fun rest => (g.2, natP ++ "/" ++ natM, g.1.2.2) :: rest)
            = isOkE (sunburstRowsAux gs) := by
          cases sunburstRowsAux gs <;> rfl
        rw [hmap, ih, List.forall_mem_cons]
        simp [hP, hM]

/-- C4: `last_name_pie` completes without a lookup error exactly when every
record's father and mother nationality flags lie in {1, 2}; one flag outside
that domain makes the `ind_to_nat[...]` lookup fail. -/
theorem last_name_pie_flag_lookup (rs : List BirthRecord) :
    isOkE (last_name_pie_rows rs) = true ↔
      ∀ r ∈ rs, (r.INDNATP = 1 ∨ r.INDNATP = 2) ∧ (r.INDNATM = 1 ∨ r.INDNATM = 2) := by
  rw [last_name_pie_rows, sunburstRowsAux_isOk]
  constructor
  · intro h r hr
    have hkey : (r.INDNATP, r.INDNATM, lastNameChoice r) ∈ lastNameGroupKeys rs :=
      List.mem_dedup.mpr (List.mem_map_of_mem _ hr)
    have hg := h _ (List.mem_map_of_mem _ hkey)
    exact ⟨(ind_to_nat_isSome _).mp hg.1, (ind_to_nat_isSome _).mp hg.2⟩
  · intro h g hg
    rw [lastNameGroups, List.mem_map] at hg
    obtain ⟨k, hk, rfl⟩ := hg
    rw [lastNameGroupKeys, List.mem_dedup, List.mem_map] at hk
    obtain ⟨r, hr, rfl⟩ := hk
    exact ⟨(ind_to_nat_isSome _).mpr (h r hr).1, (ind_to_nat_isSome _).mpr (h r hr).2⟩

/-- C5: an unmapped last-name-origin code is labelled "Father", and the
group counts of `last_name_pie` sum to the total record count. -/
theorem last_name_groups_total (rs : List BirthRecord) :
    (∀ r ∈ rs, r.ORIGINOM ∉ ([1, 2, 3, 4, 5] : List ℤ) → lastNameChoice r = "Father") ∧
    ((lastNameGroups rs).map fun g => g.2).sum = rs.length := by
  constructor
  · intro r _ hout
    simp only [List.mem_cons, List.not_mem_nil, or_false, not_or] at hout
    obtain ⟨h1, h2, h3, h4, h5⟩ := hout
    rw [lastNameChoice, ind_to_origine_nom]
    simp [h1, h2, h3, h4, h5]
  · rw [lastNameGroups, List.map_map]
    exact sum_fiber_lengths (fun r => (r.INDNATP, r.INDNATM, lastNameChoice r)) rs
      (lastNameGroupKeys rs) (List.nodup_dedup _)
      (fun r hr => List.mem_dedup.mpr (List.mem_map_of_mem _ hr))

/-- Witness for C5: the record with origin code 9 is labelled "Father" and
the group counts of its one-record dataset sum to 1. -/
theorem last_name_groups_total_witness :
    lastNameChoice ⟨"75", 1, 28, 30, 1, 2, 9, 0, 0, 0⟩ = "Father" ∧
    ((lastNameGroups rsOri).map fun g => g.2).sum = rsOri.length :=
  ⟨(last_name_groups_total rsOri).1 _ (List.mem_singleton.mpr rfl) (by decide),
   (last_name_groups_total rsOri).2⟩

/-- C3: in the `recognition` data, a row whose parent has no record at the
row's age (zero-count denominator) carries a non-finite rate, not 0. -/
theorem recognition_zero_count (rs : List BirthRecord) (row : RecognitionRow)
    (hrow : row ∈ recognition_data rs) :
    (row.parent = "Mother" → (rs.filter fun r => r.AGEXACTM = row.age).length = 0 →
      row.rate = none) ∧
    (row.parent = "Father" → (rs.filter fun r => r.AGEXACTP = row.age).length = 0 →
      row.rate = none) := by
  rw [recognition_data, List.mem_flatMap] at hrow
  obtain ⟨age, hage, hrow⟩ := hrow
  rcases List.mem_cons.mp hrow with h | hrow
  · subst h
    constructor
    · intro _ h0
      show pctDiv _ _ = none
      rw [pctDiv, if_pos h0]
    · intro hpf
      simp at hpf
  · rcases List.mem_cons.mp hrow with h | hrow
    · subst h
      constructor
      · intro hpm
        simp at hpm
      · intro _ h0
        show pctDiv _ _ = none
        rw [pctDiv, if_pos h0]
    · cases hrow

/-- Witness for C3: in `rsAge` no mother has age 30, so the "Mother" row at
age 30 has a non-finite rate. -/
theorem recognition_zero_count_witness :
    (rsAge.filter fun r => r.AGEXACTM = 30).length = 0 ∧
    (⟨"Mother", 30, none⟩ : RecognitionRow).rate = none := by
  have hmem : (⟨"Mother", 30, none⟩ : RecognitionRow) ∈ recognition_data rsAge := by
    rw [recognition_data, List.mem_flatMap]
    exact ⟨30, by decide, List.mem_cons_self _ _⟩
  exact ⟨rfl, (recognition_zero_count rsAge _ hmem).1 rfl rfl⟩

/-- Counterexample to C2 as stated: in `rsAge` the age 25 appears in the
mother's age column, yet `last_name_line` (which iterates only the father's
distinct ages) produces no entry for age 25. -/
theorem last_name_line_missing_mother_age :
    25 ∈ rsAge.map BirthRecord.AGEXACTM ∧
    ∀ row ∈ last_name_line_data rsAge, row.age ≠ 25 := by
  refine ⟨by decide, ?_⟩
  intro row hrow
  have hages : (last_name_line_data rsAge).map LastNameAgeRow.age = [30] := rfl
  have hmem : row.age ∈ [30] := hages ▸ List.mem_map_of_mem _ hrow
  intro h25
  rw [h25] at hmem
  exact absurd hmem (by decide)

/-- C2 (amended): for every age in the father's distinct-age column and
every last-name label present in the data, `last_name_line` contains the
entry whose percentage is the label's count within the either-parent age
subset over the subset size, times 100. -/
theorem last_name_line_entries (rs : List BirthRecord) (age : ℕ) (choice : String)
    (hage : age ∈ sortedFatherAges rs) (hch : choice ∈ distinctLabels rs) :
    ({ age := age, choice := choice,
       pct := pctDiv
         ((rs.filter fun r => r.AGEXACTP = age ∨ r.AGEXACTM = age).filter
            fun r => lastNameChoice r = choice).length
         (rs.filter fun r => r.AGEXACTP = age ∨ r.AGEXACTM = age).length } : LastNameAgeRow)
      ∈ last_name_line_data rs := by
  rw [last_name_line_data, List.mem_flatMap]
  exact ⟨age, hage, List.mem_map.mpr ⟨choice, hch, rfl⟩⟩

/-- Witness for the amended C2 at age 30 and label "Father" in `rsAge`. -/
theorem last_name_line_entries_witness :
    ({ age := 30, choice := "Father",
       pct := pctDiv
         ((rsAge.filter fun r => r.AGEXACTP = 30 ∨ r.AGEXACTM = 30).filter
            fun r => lastNameChoice r = "Father").length
         (rsAge.filter fun r => r.AGEXACTP = 30 ∨ r.AGEXACTM = 30).length } : LastNameAgeRow)
      ∈ last_name_line_data rsAge :=
  last_name_line_entries rsAge 30 "Father" (by decide) (by decide)

/-- C10: every age iterated by `last_name_line` comes from some record's
father age, so its either-parent subset is non-empty and every percentage in
the table is a finite value. -/
theorem last_name_line_denominators (rs : List BirthRecord) :
    (∀ age ∈ sortedFatherAges rs,
      0 < (rs.filter fun r => r.AGEXACTP = age ∨ r.AGEXACTM = age).length) ∧
    (∀ row ∈ last_name_line_data rs, row.pct.isSome = true) := by
  have hpos : ∀ age ∈ sortedFatherAges rs,
      0 < (rs.filter fun r => r.AGEXACTP = age ∨ r.AGEXACTM = age).length := by
    intro age hage
    rw [sortedFatherAges] at hage
    have hage2 : age ∈ (rs.map BirthRecord.AGEXACTP).dedup :=
      (List.perm_insertionSort _ _).mem_iff.mp hage
    rw [List.mem_dedup, List.mem_map] at hage2
    obtain ⟨r, hr, hra⟩ := hage2
    have hmem : r ∈ rs.filter fun r => r.AGEXACTP = age ∨ r.AGEXACTM = age :=
      List.mem_filter.mpr ⟨hr, by simp [hra]⟩
    exact List.length_pos_of_mem hmem
  refine ⟨hpos, ?_⟩
  intro row hrow
  rw [last_name_line_data, List.mem_flatMap] at hrow
  obtain ⟨age, hage, hrow⟩ := hrow
  rw [List.mem_map] at hrow
  obtain ⟨choice, hch, rfl⟩ := hrow
  have hden := hpos age hage
  show (pctDiv _ _).isSome = true
  rw [pctDiv, if_neg (by omega)]
  rfl

/-- Witness for C10 at age 30 in `rsAge`: the subset is non-empty and the
produced percentage is finite. -/
theorem last_name_line_denominators_witness :
    (0 < (rsAge.filter fun r => r.AGEXACTP = 30 ∨ r.AGEXACTM = 30).length) ∧
    ((⟨30, "Father", pctDiv 1 1⟩ : LastNameAgeRow).pct.isSome = true) := by
  have h := last_name_line_denominators rsAge
  refine ⟨h.1 30 (by decide), h.2 ⟨30, "Father", pctDiv 1 1⟩ ?_⟩
  rw [last_name_line_data, List.mem_flatMap]
  exact ⟨30, by decide, List.mem_map.mpr ⟨"Father", by decide, rfl⟩⟩
